import Mathlib

/-!
Shallow embedding of the macro-expansion and tile-graphics subsystem of
skoolkit/skoolhtml.py, together with theorems settling the frozen claims
about it.  Python text is modelled as `List Char`, byte buffers as
`List Nat`; machine bytes are `Nat` with explicit `% 256` where the source
reduces modulo 256; fallible operations return `Option` or `Except`.
-/

namespace SkoolHtml

/-- The 256-entry byte flip table `FLIP` (skoolhtml.py lines 64-81),
transcribed verbatim. -/
def FLIP : List Nat :=
  [0, 128, 64, 192, 32, 160, 96, 224, 16, 144, 80, 208, 48, 176, 112, 240,
   8, 136, 72, 200, 40, 168, 104, 232, 24, 152, 88, 216, 56, 184, 120, 248,
   4, 132, 68, 196, 36, 164, 100, 228, 20, 148, 84, 212, 52, 180, 116, 244,
   12, 140, 76, 204, 44, 172, 108, 236, 28, 156, 92, 220, 60, 188, 124, 252,
   2, 130, 66, 194, 34, 162, 98, 226, 18, 146, 82, 210, 50, 178, 114, 242,
   10, 138, 74, 202, 42, 170, 106, 234, 26, 154, 90, 218, 58, 186, 122, 250,
   6, 134, 70, 198, 38, 166, 102, 230, 22, 150, 86, 214, 54, 182, 118, 246,
   14, 142, 78, 206, 46, 174, 110, 238, 30, 158, 94, 222, 62, 190, 126, 254,
   1, 129, 65, 193, 33, 161, 97, 225, 17, 145, 81, 209, 49, 177, 113, 241,
   9, 137, 73, 201, 41, 169, 105, 233, 25, 153, 89, 217, 57, 185, 121, 249,
   5, 133, 69, 197, 37, 165, 101, 229, 21, 149, 85, 213, 53, 181, 117, 245,
   13, 141, 77, 205, 45, 173, 109, 237, 29, 157, 93, 221, 61, 189, 125, 253,
   3, 131, 67, 195, 35, 163, 99, 227, 19, 147, 83, 211, 51, 179, 115, 243,
   11, 139, 75, 203, 43, 171, 107, 235, 27, 155, 91, 219, 59, 187, 123, 251,
   7, 135, 71, 199, 39, 167, 103, 231, 23, 151, 87, 215, 55, 183, 119, 247,
   15, 143, 79, 207, 47, 175, 111, 239, 31, 159, 95, 223, 63, 191, 127, 255]

/-- `FLIP[b]`: table lookup used by `Udg.flip` (byte values double as
indices; the default 0 is never reached for bytes below 256). -/
def flipByte (b : Nat) : Nat := FLIP.getD b 0

/-- A UDG tile: attribute byte, 8 bitmap bytes, optional mask bytes
(class `Udg`, skoolhtml.py lines 1582-1592). -/
structure Udg where
  attr : Nat
  data : List Nat
  mask : Option (List Nat)
deriving Repr, DecidableEq

/-- Python truthiness of the `mask` attribute: not `None` and not an
empty list (`if self.mask:`). -/
def maskTruthy : Option (List Nat) → Bool
  | none => false
  | some l => !l.isEmpty

/-- The `for i in range(8): data[i] = FLIP[data[i]]` loop of `Udg.flip`:
entries at index below 8 are replaced through the table, later entries are
left alone (a list shorter than 8 would raise IndexError in the source;
theorems assume length 8). -/
def flipDataAux : Nat → List Nat → List Nat
  | _, [] => []
  | i, b :: rest => (if i < 8 then flipByte b else b) :: flipDataAux (i + 1) rest

/-- Mask half of the horizontal flip: applied only when the mask is
truthy. -/
def hMask (m : Option (List Nat)) : Option (List Nat) :=
  if maskTruthy m then m.map (flipDataAux 0) else m

/-- Mask half of the vertical flip: applied only when the mask is
truthy. -/
def vMask (m : Option (List Nat)) : Option (List Nat) :=
  if maskTruthy m then m.map List.reverse else m

/-- The horizontal-flip half of `Udg.flip` (bit 0 of the mode): bitmap and
truthy mask bytes are replaced through `FLIP`. -/
def flipH (u : Udg) : Udg :=
  { attr := u.attr, data := flipDataAux 0 u.data, mask := hMask u.mask }

/-- The vertical-flip half of `Udg.flip` (bit 1 of the mode): bitmap and
truthy mask row orders are reversed. -/
def flipV (u : Udg) : Udg :=
  { attr := u.attr, data := u.data.reverse, mask := vMask u.mask }

/-- `Udg.flip` (skoolhtml.py lines 1618-1632): bit 0 of `f` applies the
byte-flip table, then bit 1 reverses the row order. -/
def Udg.flip (u : Udg) (f : Nat) : Udg :=
  let u1 := if (f &&& 1) != 0 then flipH u else u
  if (f &&& 2) != 0 then flipV u1 else u1

/-- One output byte of `Udg._rotate_tile` for bit-plane `b`: the
`rbyte //= 2; if byte & b: rbyte += 128` accumulation over the input
bytes (skoolhtml.py lines 1608-1612). -/
def rbyteFor (b : Nat) (tileData : List Nat) : Nat :=
  tileData.foldl (fun r byte => if byte &&& b != 0 then r / 2 + 128 else r / 2) 0

/-- `Udg._rotate_tile` (skoolhtml.py lines 1604-1616): one output byte per
bit-plane `b = 1, 2, 4, ..., 128`, then the collected list is reversed. -/
def rotateTile (tileData : List Nat) : List Nat :=
  ((List.range 8).map (fun k => rbyteFor (2 ^ k) tileData)).reverse

/-- One iteration of the `Udg.rotate` loop body: rotate the bitmap, and
the mask when truthy. -/
def rotStepU (u : Udg) : Udg :=
  { attr := u.attr
    data := rotateTile u.data
    mask := if maskTruthy u.mask then u.mask.map rotateTile else u.mask }

/-- The `for i in range(rotate & 3)` iteration of `Udg.rotate`. -/
def rotateIter : Nat → Udg → Udg
  | 0, u => u
  | k + 1, u => rotateIter k (rotStepU u)

/-- `Udg.rotate` (skoolhtml.py lines 1634-1642): apply `_rotate_tile`
`n &&& 3` times to bitmap and truthy mask. -/
def Udg.rotate (u : Udg) (n : Nat) : Udg := rotateIter (n &&& 3) u

/-- The snapshot state of an `HtmlWriter`: the current memory snapshot
(`self.snapshot`) and the stack of saved `(snapshot, name)` pairs
(`self._snapshots`, top of stack at the end of the list, mirroring
Python's `append` and `pop`).  At construction (skoolhtml.py lines
115-116) the stack holds the single entry `(snapshot, '')`. -/
structure SnapState where
  snapshot : List Nat
  stack : List (List Nat × String)
deriving Repr, DecidableEq

/-- `HtmlWriter.push_snapshot` (skoolhtml.py lines 377-384):
`self._snapshots.append((self.snapshot[:], name))` — a copy of the
current snapshot is appended to the stack; the current snapshot itself
is unchanged. -/
def push_snapshot (s : SnapState) (name : String) : SnapState :=
  { snapshot := s.snapshot, stack := s.stack ++ [(s.snapshot, name)] }

/-- `HtmlWriter.pop_snapshot` (skoolhtml.py lines 371-375):
`self.snapshot = self._snapshots.pop()[0]` — unconditionally removes the
last stack entry and makes its snapshot current; `none` models the
IndexError Python raises only when the stack is empty. -/
def pop_snapshot (s : SnapState) : Option SnapState :=
  match s.stack.getLast? with
  | none => none
  | some entry => some { snapshot := entry.1, stack := s.stack.dropLast }

/-- A poke-style mutation of the current snapshot: write byte `v` at
address `addr` of `self.snapshot` (the stack entries are untouched; the
saved copies were made by `push_snapshot`). -/
def poke (s : SnapState) (addr v : Nat) : SnapState :=
  { snapshot := s.snapshot.set addr v, stack := s.stack }

/-- `HtmlWriter._get_screen_udg` (skoolhtml.py lines 422-425): one screen
tile built from the attribute byte at `af_addr + 32*row + col` and the
eight display-file bytes `snapshot[address : address + 2048 : 256]`. -/
def get_screen_udg (snapshot : List Nat) (row col : Nat) (dfAddr afAddr : Nat) : Udg :=
  let attr := snapshot.getD (afAddr + 32 * row + col) 0
  let address := dfAddr + 2048 * (row / 8) + 32 * (row % 8) + col
  ⟨attr, (List.range 8).map (fun k => snapshot.getD (address + 256 * k) 0), none⟩

/-- `HtmlWriter.screenshot` (skoolhtml.py lines 427-444): clamp the
requested region to the 32x24-tile screen and build the grid row by row.
The macro parameter grammar admits only non-negative integers, so the
coordinates are `Nat` and `32 - x` is truncated subtraction (matching
Python, where a negative `min` makes the corresponding `range` empty). -/
def screenshot (snapshot : List Nat) (x y w h dfAddr afAddr : Nat) : List (List Udg) :=
  let width := min w (32 - x)
  let height := min h (24 - y)
  (List.range' y height).map
    (fun r => (List.range' x width).map (fun c => get_screen_udg snapshot r c dfAddr afAddr))

/-- Split a character list at every occurrence of `sep`, the analogue of
Python `str.split(sep)` for a one-character separator (always returns at
least one piece; an empty input yields one empty piece). -/
def splitChar (sep : Char) : List Char → List (List Char)
  | [] => [[]]
  | c :: cs =>
    if c = sep then [] :: splitChar sep cs
    else
      match splitChar sep cs with
      | [] => [[c]]
      | p :: ps => (c :: p) :: ps

/-- Rejoin pieces with `sep`, the analogue of `sep.join(...)`. -/
def intercalateChar (sep : Char) : List (List Char) → List Char
  | [] => []
  | [x] => x
  | x :: xs => x ++ sep :: intercalateChar sep xs

/-- Python `str.split(sep, maxsplit)` for a one-character separator:
at most `limit` splits, counted from the left. -/
def splitCharLimit (sep : Char) (limit : Nat) (l : List Char) : List (List Char) :=
  let parts := splitChar sep l
  if parts.length ≤ limit + 1 then parts
  else parts.take limit ++ [intercalateChar sep (parts.drop limit)]

/-- Decimal digit value of a character, if any. -/
def decDigit (c : Char) : Option Nat :=
  if '0' ≤ c ∧ c ≤ '9' then some (c.toNat - '0'.toNat) else none

/-- Hexadecimal digit value of a character, if any. -/
def hexDigit (c : Char) : Option Nat :=
  if '0' ≤ c ∧ c ≤ '9' then some (c.toNat - '0'.toNat)
  else if 'a' ≤ c ∧ c ≤ 'f' then some (c.toNat - 'a'.toNat + 10)
  else if 'A' ≤ c ∧ c ≤ 'F' then some (c.toNat - 'A'.toNat + 10)
  else none

/-- Accumulate digits left to right in the given base; fails on the first
character that is not a digit. -/
def digitsAux (base : Nat) (digitVal : Char → Option Nat) : Nat → List Char → Option Nat
  | acc, [] => some acc
  | acc, c :: cs =>
    match digitVal c with
    | none => none
    | some d => digitsAux base digitVal (acc * base + d) cs

/-- Modelled from the spec: `get_int_param` / `parse_int` (from the
skoolkit package root, which is not under src/) evaluate an integer
literal that is either decimal or `$`-prefixed hexadecimal; anything
else (including the empty string) is invalid. -/
def get_int_param : List Char → Option Nat
  | [] => none
  | '$' :: rest => if rest = [] then none else digitsAux 16 hexDigit 0 rest
  | cs => digitsAux 10 decDigit 0 cs

/-- An address specification handed to `_get_udg_addresses`: either an
already-parsed integer or the raw range text (`type(addr_spec) is int`
check, skoolhtml.py line 1156). -/
inductive AddrSpec where
  | int (n : Nat)
  | str (s : List Char)
deriving Repr, DecidableEq

/-- The `while address <= end_address` loop of `_get_udg_addresses`
(skoolhtml.py lines 1178-1183), with explicit fuel: the Python loop can
diverge for non-positive strides (and raises ZeroDivisionError for width
0), in which case the model returns `none`. -/
def expandAddrLoop (width : Nat) (endAddress hStep vStep : Int) :
    Nat → Int → List Int → Option (List Int)
  | 0, _, _ => none
  | fuel + 1, address, acc =>
    if address ≤ endAddress then
      if width = 0 then none
      else
        let acc := acc ++ [address]
        let address :=
          if acc.length % width ≠ 0 then address + hStep
          else address + vStep - ((width : Int) - 1) * hStep
        expandAddrLoop width endAddress hStep vStep fuel address acc
    else some acc

/-- `HtmlWriter._get_udg_addresses` (skoolhtml.py lines 1155-1184):
integer specs pass through as singletons; otherwise an optional `xN`
repeat suffix is split off, the remainder is split on `-` into at most
four integers `A-B-H-V` with defaults `B = A`, `H = 1`, `V = H * width`,
the loop is run, and the result is repeated `N` times.  `none` models
the MacroParsingError raised for invalid specs. -/
def get_udg_addresses (addrSpec : AddrSpec) (width : Nat) : Option (List Int) :=
  match addrSpec with
  | .int n => some [(n : Int)]
  | .str s =>
    let pair : Option (List Char × Nat) :=
      if s.elem 'x' then
        match splitCharLimit 'x' 1 s with
        | [a, nstr] =>
          match get_int_param nstr with
          | none => none
          | some n => some (a, n)
        | _ => none
      else some (s, 1)
    match pair with
    | none => none
    | some (addr, num) =>
      match (splitCharLimit '-' 3 addr).mapM get_int_param with
      | none => none
      | some parsed =>
        let elements : Option (Int × Int × Int × Int) :=
          match parsed with
          | [a] => some ((a : Int), (a : Int), 1, (width : Int))
          | [a, b] => some ((a : Int), (b : Int), 1, (width : Int))
          | [a, b, hs] => some ((a : Int), (b : Int), (hs : Int), (hs : Int) * width)
          | [a, b, hs, vs] => some ((a : Int), (b : Int), (hs : Int), (vs : Int))
          | _ => none
        match elements with
        | none => none
        | some (address, endAddress, hStep, vStep) =>
          let fuel := ((endAddress + 1 - address).toNat + 1) * (width + 1)
          match expandAddrLoop width endAddress hStep vStep fuel address [] with
          | none => none
          | some addresses => some (List.flatten (List.replicate num addresses))

/-- The dynamically-typed `mask` argument of `Frame.__init__`: Python
callers pass either a bool or an int, and the constructor maps `False`
to 0 and `True` to 1 (skoolhtml.py lines 1671-1676). -/
inductive MaskArg where
  | bool (b : Bool)
  | int (n : Nat)
deriving Repr, DecidableEq

/-- The `mask is False / mask is True / else` normalisation of
`Frame.__init__`. -/
def MaskArg.resolve : MaskArg → Nat
  | .bool false => 0
  | .bool true => 1
  | .int n => n

/-- A constructed `Frame` (skoolhtml.py lines 1649-1712): the tile grid,
scale, normalised mask mode, crop offset, effective and full dimensions,
inter-frame delay and the `trans` field initialised to 0. -/
structure FrameL where
  udgs : List (List Udg)
  scale : Int
  mask : Nat
  x : Int
  y : Int
  width : Int
  height : Int
  fullWidth : Int
  fullHeight : Int
  delay : Int
  trans : Int
deriving Repr, DecidableEq

/-- `Frame.__init__` (skoolhtml.py lines 1668-1684).  `full_width` is
`8 * len(udgs[0]) * scale`, `full_height` is `8 * len(udgs) * scale`
(`headD` stands in for the `udgs[0]` subscript, whose IndexError on an
empty grid is unreachable from the callers in this module); the
effective width is `min(width or full_width, full_width - x)`, where the
Python `or` substitutes the full dimension when the request is `None`
or the falsy integer 0, and likewise for the height. -/
def frameInit (udgs : List (List Udg)) (scale : Int) (mask : MaskArg) (x y : Int)
    (width height : Option Int) (delay : Int) : FrameL :=
  let fullW : Int := 8 * ((udgs.headD []).length : Int) * scale
  let fullH : Int := 8 * (udgs.length : Int) * scale
  let reqW := match width with
    | none => fullW
    | some w => if w = 0 then fullW else w
  let reqH := match height with
    | none => fullH
    | some h => if h = 0 then fullH else h
  { udgs := udgs, scale := scale, mask := mask.resolve, x := x, y := y,
    width := min reqW (fullW - x), height := min reqH (fullH - y),
    fullWidth := fullW, fullHeight := fullH, delay := delay, trans := 0 }

/-- `Frame.cropped` (skoolhtml.py lines 1710-1712). -/
def FrameL.cropped (fr : FrameL) : Bool :=
  (fr.width != fr.fullWidth) || (fr.height != fr.fullHeight)

/-- Python `str.rsplit(sep, 1)` for a one-character separator: split at
the last occurrence only. -/
def rsplit1 (sep : Char) (l : List Char) : List (List Char) :=
  match splitChar sep l with
  | [x] => [x]
  | parts => [intercalateChar sep parts.dropLast, parts.getLastD []]

/-- Association-list lookup modelling a Python dict (most recent insertion
first, so later stores shadow earlier ones). -/
def lookupBy {α β : Type} [DecidableEq α] : List (α × β) → α → Option β
  | [], _ => none
  | (k, v) :: rest, key => if key = k then some v else lookupBy rest key

/-- The fatal macro errors of this module (`MacroParsingError` /
`SkoolKitError` payloads; message spans carried as character lists). -/
inductive MacroErr where
  | missingFilename (span : List Char)
  | missingFilenameOrFrame (span : List Char)
  | missingFrameId (span : List Char)
  | noSuchFrame (id : List Char)
  | invalidDelay (s : List Char)
  | invalidAddressRange (s : List Char)
  | unknownPathId (pathId fname : List Char)
deriving Repr, DecidableEq

/-- `FileInfo.need_image` (skoolhtml.py lines 1564-1565):
`self.replace_images or not self.file_exists(image_path)`. -/
def need_image (replaceImages fileExists : Bool) : Bool :=
  replaceImages || !fileExists

/-- The module-level `join` (skoolhtml.py lines 83-84): components whose
characters are all slashes are dropped, the rest are joined with `/`. -/
def joinPaths (components : List (List Char)) : List Char :=
  intercalateChar '/' (components.filter (fun c => c.any (fun ch => ch != '/')))

/-- `fname[-4:].lower()` used by `image_path` for the extension check. -/
def lowerLast4 (f : List Char) : List Char :=
  (f.drop (f.length - 4)).map Char.toLower

/-- The path ID `'UDGImagePath'` hard-coded at the `image_path` call sites
of the UDGARRAY handlers (skoolhtml.py lines 1434 and 1500). -/
def udgImagePathId : List Char := "UDGImagePath".toList

/-- `HtmlWriter.image_path` (skoolhtml.py lines 1201-1222): blank name
gives `None`; otherwise a `.png`/`.gif` name keeps its extension and any
other name gains the default format suffix; a leading `/` bypasses the
path table, and an unknown path ID is a fatal error naming both the ID
and the filename. -/
def image_path (paths : List (List Char × List Char)) (defaultFormat : List Char)
    (fname : List Char) (pathId : List Char) : Except MacroErr (Option (List Char)) :=
  if fname = [] then .ok none
  else
    let suffix : List Char :=
      if lowerLast4 fname = ['.', 'p', 'n', 'g'] ∨ lowerLast4 fname = ['.', 'g', 'i', 'f']
      then [] else '.' :: defaultFormat
    if fname.headD ' ' = '/' then .ok (some (fname.drop 1 ++ suffix))
    else
      match lookupBy paths pathId with
      | some dir => .ok (some (joinPaths [dir, fname ++ suffix]))
      | none => .error (.unknownPathId pathId fname)

/-- The `for frame_param in frame_params[1:].split(';')` loop of
`_expand_udgarray_with_frames` (skoolhtml.py lines 1438-1456): each
clause is rsplit on its last comma; a two-element result names an
explicit delay (which also becomes the new default), otherwise the whole
clause is the frame ID and the running default delay applies; an empty ID
and an unknown ID are fatal errors; each referenced frame has its delay
set and is collected in order. -/
def processFrameClauses (cache : List (List Char × FrameL)) (span : List Char) :
    List (List Char) → Int → Except MacroErr (List FrameL)
  | [], _ => .ok []
  | fp :: rest, defaultDelay =>
    let parsed : Except MacroErr (List Char × Int × Int) :=
      match rsplit1 ',' fp with
      | [frameId, dstr] =>
        match get_int_param dstr with
        | none => .error (.invalidDelay dstr)
        | some d => .ok (frameId, (d : Int), (d : Int))
      | _ => .ok (fp, defaultDelay, defaultDelay)
    match parsed with
    | .error e => .error e
    | .ok (frameId, delay, newDefault) =>
      if frameId = [] then .error (.missingFrameId span)
      else
        match lookupBy cache frameId with
        | none => .error (.noSuchFrame frameId)
        | some fr =>
          match processFrameClauses cache span rest newDefault with
          | .error e => .error e
          | .ok frs => .ok ({ fr with delay := delay } :: frs)

/-- `HtmlWriter._expand_udgarray_with_frames` (skoolhtml.py lines
1430-1458), taken after the `parse_params` boundary: `fname` and
`frameParams` are the parsed filename and the raw `*frame1[,d];...` span.
A missing filename is fatal; the image path is resolved; the frame
clauses are examined only when the image needs writing
(`if self.need_image(img_path):`), and a successful run yields
`some frames` when the animated image was written and `none` when the
write was skipped. -/
def expandUdgarrayFrames (paths : List (List Char × List Char)) (defaultFormat : List Char)
    (fname frameParams : List Char) (replaceImages fileExists : Bool)
    (cache : List (List Char × FrameL)) : Except MacroErr (Option (List FrameL)) :=
  if fname = [] then .error (.missingFilename frameParams)
  else
    match image_path paths defaultFormat fname udgImagePathId with
    | .error e => .error e
    | .ok _imgPath =>
      if need_image replaceImages fileExists then
        match processFrameClauses cache frameParams (splitChar ';' (frameParams.drop 1)) 32 with
        | .error e => .error e
        | .ok frames => .ok (some frames)
      else .ok none

/-- Read a snapshot byte at an `Int` address (addresses produced by range
expansion); out-of-range reads yield 0 (the claims stay within range;
Python resolves negative indices from the end of the list). -/
def snapAt (snapshot : List Nat) (i : Int) : Nat := snapshot.getD i.toNat 0

/-- One parsed source clause of the direct-form `#UDGARRAY` macro
(skoolhtml.py line 1471): address range, per-clause attribute, step and
increment (defaults already resolved by the parameter parser), and the
optional `:maskAddr[,maskStep]` suffix with its step (which the parser
defaults to the clause step, line 1475). -/
structure UdgClauseSpec where
  addr : AddrSpec
  attr : Nat
  step : Nat
  inc : Nat
  mask : Option (AddrSpec × Nat)
deriving Repr, DecidableEq

/-- Build one tile from the snapshot (skoolhtml.py lines 1480-1483):
eight bytes at stride `step` with the increment added modulo 256, and
eight mask bytes at stride `maskStep` when a mask address is present. -/
def buildUdg (snapshot : List Nat) (attr step inc maskStep : Nat) (u : Int)
    (m : Option Int) : Udg :=
  let udgBytes := (List.range 8).map (fun n => (snapAt snapshot (u + (n * step : Nat)) + inc) % 256)
  match m with
  | none => ⟨attr, udgBytes, none⟩
  | some ma =>
    ⟨attr, udgBytes, some ((List.range 8).map (fun n => snapAt snapshot (ma + (n * maskStep : Nat))))⟩

/-- Append a tile to the grid, wrapping to a new row every `width` tiles
(skoolhtml.py lines 1484-1487). -/
def appendUdg (width : Nat) (g : List (List Udg)) (u : Udg) : List (List Udg) :=
  if (g.getLastD []).length = width then g ++ [[u]]
  else g.dropLast ++ [g.getLastD [] ++ [u]]

/-- One iteration of the `while text[end] == ';'` clause loop of
`expand_udgarray` (skoolhtml.py lines 1470-1487): expand the tile and
mask address ranges, recompute `has_masks` from this clause alone
(`has_masks = len(mask_addresses) > 0`, an assignment, not an
accumulation), pad the mask addresses with `None`, and append the built
tiles to the grid. -/
def processClause (snapshot : List Nat) (width : Nat) (grid : List (List Udg))
    (c : UdgClauseSpec) : Option (List (List Udg) × Bool) :=
  match get_udg_addresses c.addr width with
  | none => none
  | some udgAddresses =>
    match (match c.mask with
           | none => some ([] : List Int)
           | some q => get_udg_addresses q.1 width) with
    | none => none
    | some maskAddresses =>
      let maskStep := (c.mask.map (fun q => q.2)).getD c.step
      let hasMasks := decide (0 < maskAddresses.length)
      let maskPadded := maskAddresses.map some ++
        List.replicate (udgAddresses.length - maskAddresses.length) (none : Option Int)
      let grid := (udgAddresses.zip maskPadded).foldl
        (fun g p => appendUdg width g (buildUdg snapshot c.attr c.step c.inc maskStep p.1 p.2))
        grid
      some (grid, hasMasks)

/-- Run the clause loop over a list of clauses, threading the grid and the
(last-assigned) `has_masks` flag. -/
def processClausesAux (snapshot : List Nat) (width : Nat) :
    List (List Udg) × Bool → List UdgClauseSpec → Option (List (List Udg) × Bool)
  | st, [] => some st
  | st, c :: rest =>
    match processClause snapshot width st.1 c with
    | none => none
    | some st' => processClausesAux snapshot width st' rest

/-- The whole clause phase of `expand_udgarray`, starting from the
`udg_array = [[]]`, `has_masks = False` initial state (lines
1468-1469). -/
def processClauses (snapshot : List Nat) (width : Nat) (cs : List UdgClauseSpec) :
    Option (List (List Udg) × Bool) :=
  processClausesAux snapshot width ([[]], false) cs

/-- `HtmlWriter.flip_udgs` (skoolhtml.py lines 446-461): flip every tile,
then reverse each row for a horizontal flip and the row order for a
vertical flip. -/
def flip_udgs (udgs : List (List Udg)) (f : Nat) : List (List Udg) :=
  let udgs1 := udgs.map (fun row => row.map (fun u => u.flip f))
  let udgs2 := if (f &&& 1) != 0 then udgs1.map List.reverse else udgs1
  if (f &&& 2) != 0 then udgs2.reverse else udgs2

/-- `HtmlWriter.rotate_udgs` (skoolhtml.py lines 463-490): rotate every
tile, then transpose the grid geometry according to `rotate &&& 3`. -/
def rotate_udgs (udgs : List (List Udg)) (n : Nat) : List (List Udg) :=
  let udgs1 := udgs.map (fun row => row.map (fun u => u.rotate n))
  if n &&& 3 = 1 then
    (List.range (udgs1.headD []).length).map
      (fun i => (udgs1.map (fun row => row.getD i ⟨0, [], none⟩)).reverse)
  else if n &&& 3 = 2 then
    (udgs1.reverse).map List.reverse
  else if n &&& 3 = 3 then
    ((List.range (udgs1.headD []).length).map
      (fun i => udgs1.map (fun row => row.getD i ⟨0, [], none⟩))).reverse
  else udgs1

/-- Python `str.partition('*')`: the part before the first `*`, whether a
`*` was found, and the part after it. -/
def partitionStar : List Char → List Char × Bool × List Char
  | [] => ([], false, [])
  | c :: cs =>
    if c = '*' then ([], true, cs)
    else
      let r := partitionStar cs
      (c :: r.1, r.2.1, r.2.2)

/-- The crop rectangle `(x, y, width, height)` with parser defaults
`(0, 0, None, None)`. -/
structure CropSpec where
  x : Int
  y : Int
  w : Option Int
  h : Option Int
deriving Repr, DecidableEq

/-- The arguments of one `write_image` call (skoolhtml.py line 1510) —
each such call drives exactly one invocation of the external image
encoder via `write_animated_image`. -/
structure WrittenImage where
  path : List Char
  udgs : List (List Udg)
  crop : CropSpec
  scale : Int
  maskType : Nat
deriving Repr, DecidableEq

/-- The observable outcome of a direct-form `#UDGARRAY` expansion: the
frame cache after the call, the number of image-encoder invocations, the
`write_image` arguments when an image was written, and the image path
referenced by the returned markup (`none` models the empty string
returned when no still-image name was given). -/
structure UdgarrayOutcome where
  cache : List (List Char × FrameL)
  encoderCalls : Nat
  written : Option WrittenImage
  output : Option (List Char)
deriving Repr, DecidableEq

/-- The tail of `expand_udgarray` after the clause loop (skoolhtml.py
lines 1491-1513): missing filename is fatal; the filename is partitioned
on `*` into a still-image name and a frame identifier (a trailing bare
`*` reuses the name as the identifier); the image path is resolved with
path ID `'UDGImagePath'`; `need_image` requires a truthy path and the
replace-images-or-file-absent test; grid flip and rotation, frame
caching and the single `write_image` call all happen only under
`if frame or need_image:`. -/
def udgarrayFinish (paths : List (List Char × List Char)) (defaultFormat : List Char)
    (cache : List (List Char × FrameL)) (replaceImages fileExists : Bool)
    (udgArray : List (List Udg)) (flipN rotateN : Nat) (scale : Int) (maskType : Nat)
    (crop : CropSpec) (fname0 span : List Char) : Except MacroErr UdgarrayOutcome :=
  if fname0 = [] then .error (.missingFilename span)
  else
    let fname := (partitionStar fname0).1
    let sep := (partitionStar fname0).2.1
    let frame := if sep ∧ (partitionStar fname0).2.2 = [] then fname else (partitionStar fname0).2.2
    if fname = [] ∧ frame = [] then .error (.missingFilenameOrFrame span)
    else
      match image_path paths defaultFormat fname udgImagePathId with
      | .error e => .error e
      | .ok imgPath =>
        let imgTruthy := match imgPath with
          | none => false
          | some q => !q.isEmpty
        let needImg := imgTruthy && need_image replaceImages fileExists
        let output := if imgTruthy then imgPath else none
        if (!frame.isEmpty) || needImg then
          let arr1 := if flipN ≠ 0 then flip_udgs udgArray flipN else udgArray
          let arr2 := if rotateN ≠ 0 then rotate_udgs arr1 rotateN else arr1
          let cache' := if frame ≠ [] then
              (frame, frameInit arr2 scale (.int maskType) crop.x crop.y crop.w crop.h 32) :: cache
            else cache
          if needImg then
            .ok ⟨cache', 1, some ⟨imgPath.getD [], arr2, crop, scale, maskType⟩, output⟩
          else .ok ⟨cache', 0, none, output⟩
        else .ok ⟨cache, 0, none, output⟩

/-- The direct-source form of `expand_udgarray` (skoolhtml.py lines
1460-1513) after the parameter-parsing boundary: run the clause loop,
force the mask type to 0 when the (last) clause supplied no mask
addresses (`if not has_masks: mask_type = 0`, lines 1488-1489), then
finish with partitioning, caching and the need-image-gated render. -/
def expand_udgarray_direct (snapshot : List Nat) (width : Nat) (scale : Int)
    (flipN rotateN maskType : Nat) (clauses : List UdgClauseSpec) (crop : CropSpec)
    (fname0 span : List Char) (cache : List (List Char × FrameL))
    (replaceImages fileExists : Bool) (paths : List (List Char × List Char))
    (defaultFormat : List Char) : Except MacroErr UdgarrayOutcome :=
  match processClauses snapshot width clauses with
  | none => .error (.invalidAddressRange span)
  | some st =>
    let maskType := if !st.2 then 0 else maskType
    udgarrayFinish paths defaultFormat cache replaceImages fileExists st.1 flipN rotateN scale
      maskType crop fname0 span

/-- The `write_image` argument record produced by the C9 witness run (two
clauses, the first with a mask range, the second without). -/
def c9WitnessWritten : WrittenImage :=
  ⟨"img/p.png".toList,
   [[⟨56, [0, 0, 0, 0, 0, 0, 0, 0], some [0, 0, 0, 0, 0, 0, 0, 0]⟩],
    [⟨56, [0, 0, 0, 0, 0, 0, 0, 0], none⟩]],
   ⟨0, 0, none, none⟩, 1, 0⟩

/-- The full outcome of the C9 witness run. -/
def c9WitnessOutcome : UdgarrayOutcome :=
  ⟨[], 1, some c9WitnessWritten, some "img/p.png".toList⟩

set_option maxRecDepth 8000 in

theorem flip_table_invol : ∀ b ∈ List.range 256, flipByte (flipByte b) = b := by decide

theorem flipByte_flipByte {b : Nat} (h : b < 256) : flipByte (flipByte b) = b :=
  flip_table_invol b (List.mem_range.mpr h)

theorem flipDataAux_eq_map :
    ∀ (d : List Nat) (i : Nat), i + d.length ≤ 8 → flipDataAux i d = d.map flipByte := by
  intro d
  induction d with
  | nil => intro i _; rfl
  | cons b rest ih =>
    intro i h
    have hi : i < 8 := by simp only [List.length_cons] at h; omega
    simp only [flipDataAux, List.map_cons, if_pos hi]
    rw [ih (i + 1) (by simp only [List.length_cons] at h; omega)]

theorem flipDataAux_length : ∀ (i : Nat) (d : List Nat), (flipDataAux i d).length = d.length := by
  intro i d
  induction d generalizing i with
  | nil => rfl
  | cons b rest ih => simp [flipDataAux, ih]

theorem ne_nil_of_length_eq_8 (l : List Nat) (h : l.length = 8) : l ≠ [] := by
  intro he
  subst he
  simp at h

theorem maskTruthy_of_ne_nil (l : List Nat) (h : l ≠ []) : maskTruthy (some l) = true := by
  cases l with
  | nil => exact absurd rfl h
  | cons a t => rfl

theorem flipData_flipData (d : List Nat) (hlen : d.length = 8) (hb : ∀ b ∈ d, b < 256) :
    flipDataAux 0 (flipDataAux 0 d) = d := by
  have h1 : flipDataAux 0 d = d.map flipByte := flipDataAux_eq_map d 0 (by omega)
  have h2 : flipDataAux 0 (flipDataAux 0 d) = (flipDataAux 0 d).map flipByte := by
    apply flipDataAux_eq_map
    rw [flipDataAux_length]
    omega
  rw [h2, h1, List.map_map]
  calc List.map (flipByte ∘ flipByte) d = List.map id d := by
        apply List.map_congr_left
        intro b hbmem
        exact flipByte_flipByte (hb b hbmem)
    _ = d := List.map_id d

theorem flipData_reverse (d : List Nat) (hlen : d.length = 8) :
    flipDataAux 0 d.reverse = (flipDataAux 0 d).reverse := by
  have h1 : flipDataAux 0 d = d.map flipByte := flipDataAux_eq_map d 0 (by omega)
  have h2 : flipDataAux 0 d.reverse = d.reverse.map flipByte := by
    apply flipDataAux_eq_map
    simp only [List.length_reverse]
    omega
  rw [h1, h2, List.map_reverse]

theorem hMask_hMask (m : Option (List Nat))
    (hm : ∀ mk, m = some mk → mk.length = 8 ∧ ∀ b ∈ mk, b < 256) :
    hMask (hMask m) = m := by
  cases m with
  | none => rfl
  | some mk =>
    obtain ⟨hml, hmb⟩ := hm mk rfl
    have h1 : maskTruthy (some mk) = true :=
      maskTruthy_of_ne_nil mk (ne_nil_of_length_eq_8 mk hml)
    have hlen2 : (flipDataAux 0 mk).length = 8 := by rw [flipDataAux_length]; exact hml
    have h2 : maskTruthy (some (flipDataAux 0 mk)) = true :=
      maskTruthy_of_ne_nil _ (ne_nil_of_length_eq_8 _ hlen2)
    simp only [hMask, h1, if_true, Option.map_some', h2]
    rw [flipData_flipData mk hml hmb]

theorem vMask_vMask (m : Option (List Nat)) : vMask (vMask m) = m := by
  cases m with
  | none => rfl
  | some mk =>
    cases mk with
    | nil => rfl
    | cons a t =>
      have h1 : maskTruthy (some (a :: t)) = true := rfl
      have hne : (a :: t).reverse ≠ [] := by
        intro he
        rw [List.reverse_eq_nil_iff] at he
        exact List.noConfusion he
      have h2 : maskTruthy (some ((a :: t).reverse)) = true := maskTruthy_of_ne_nil _ hne
      simp only [vMask, h1, if_true, Option.map_some', h2, List.reverse_reverse]

theorem hMask_vMask_comm (m : Option (List Nat))
    (hm : ∀ mk, m = some mk → mk.length = 8) :
    hMask (vMask m) = vMask (hMask m) := by
  cases m with
  | none => rfl
  | some mk =>
    have hml := hm mk rfl
    have hne : mk ≠ [] := ne_nil_of_length_eq_8 mk hml
    have h1 : maskTruthy (some mk) = true := maskTruthy_of_ne_nil mk hne
    have hnerev : mk.reverse ≠ [] := by
      intro he
      rw [List.reverse_eq_nil_iff] at he
      exact hne he
    have h2 : maskTruthy (some mk.reverse) = true := maskTruthy_of_ne_nil _ hnerev
    have hlen2 : (flipDataAux 0 mk).length = 8 := by rw [flipDataAux_length]; exact hml
    have h3 : maskTruthy (some (flipDataAux 0 mk)) = true :=
      maskTruthy_of_ne_nil _ (ne_nil_of_length_eq_8 _ hlen2)
    simp only [hMask, vMask, h1, if_true, Option.map_some', h2, h3]
    rw [flipData_reverse mk hml]

theorem flipH_flipH (u : Udg) (hd : u.data.length = 8)
    (hb : ∀ b ∈ u.data, b < 256)
    (hm : ∀ mk, u.mask = some mk → mk.length = 8 ∧ ∀ b ∈ mk, b < 256) :
    flipH (flipH u) = u := by
  obtain ⟨attr, data, mask⟩ := u
  simp only [flipH]
  congr 1
  · exact flipData_flipData data hd hb
  · exact hMask_hMask mask hm

theorem flipV_flipV (u : Udg) : flipV (flipV u) = u := by
  obtain ⟨attr, data, mask⟩ := u
  simp only [flipV]
  congr 1
  · exact List.reverse_reverse data
  · exact vMask_vMask mask

theorem flipH_flipV_comm (u : Udg) (hd : u.data.length = 8)
    (hm : ∀ mk, u.mask = some mk → mk.length = 8) :
    flipH (flipV u) = flipV (flipH u) := by
  obtain ⟨attr, data, mask⟩ := u
  simp only [flipH, flipV]
  congr 1
  · exact flipData_reverse data hd
  · exact hMask_vMask_comm mask hm

theorem flip_one (u : Udg) : u.flip 1 = flipH u := rfl

theorem flip_two (u : Udg) : u.flip 2 = flipV u := rfl

theorem flip_three (u : Udg) : u.flip 3 = flipV (flipH u) := rfl

/-- C5: for every well-formed tile (8 bitmap bytes below 256, and when a
mask is present, 8 mask bytes below 256) and every flip mode in 1..3,
flipping twice with the same mode restores the tile exactly. -/
theorem c5_flip_involution (u : Udg) (m : Nat)
    (hmode : m = 1 ∨ m = 2 ∨ m = 3)
    (hd : u.data.length = 8)
    (hb : ∀ b ∈ u.data, b < 256)
    (hm : ∀ mk, u.mask = some mk → mk.length = 8 ∧ ∀ b ∈ mk, b < 256) :
    (u.flip m).flip m = u := by
  rcases hmode with h1 | h2 | h3
  · subst h1
    rw [flip_one, flip_one]
    exact flipH_flipH u hd hb hm
  · subst h2
    rw [flip_two, flip_two]
    exact flipV_flipV u
  · subst h3
    rw [flip_three, flip_three]
    have hdH : (flipH u).data.length = 8 := by
      simp only [flipH]
      rw [flipDataAux_length]
      exact hd
    have hmH : ∀ mk, (flipH u).mask = some mk → mk.length = 8 := by
      intro mk hmk
      simp only [flipH, hMask] at hmk
      by_cases htr : maskTruthy u.mask = true
      · rw [if_pos htr] at hmk
        cases hmask : u.mask with
        | none => rw [hmask] at hmk; exact Option.noConfusion hmk
        | some mk0 =>
          rw [hmask] at hmk
          simp only [Option.map_some', Option.some.injEq] at hmk
          obtain ⟨hml, _⟩ := hm mk0 hmask
          rw [← hmk, flipDataAux_length]
          exact hml
      · rw [if_neg htr] at hmk
        exact (hm mk hmk).1
    rw [flipH_flipV_comm (flipH u) hdH hmH, flipV_flipV]
    exact flipH_flipH u hd hb hm

/-- C5 witness: a concrete masked tile flipped twice with mode 3 is
restored. -/
theorem c5_flip_involution_witness :
    (Udg.flip (Udg.flip ⟨56, [1, 2, 3, 4, 5, 6, 7, 128], some [9, 10, 11, 12, 13, 14, 15, 255]⟩ 3) 3)
      = ⟨56, [1, 2, 3, 4, 5, 6, 7, 128], some [9, 10, 11, 12, 13, 14, 15, 255]⟩ :=
  c5_flip_involution _ 3 (Or.inr (Or.inr rfl)) (by decide) (by decide)
    (fun mk hmk => by cases hmk; exact ⟨by decide, by decide⟩)

/-- C6: rotating any tile by 4 is the identity (the loop runs `4 &&& 3 = 0`
times), and rotating by 1 twice equals rotating by 2; both equalities cover
the mask since they are equalities of whole tiles. -/
theorem c6_rotate_laws (u : Udg) :
    u.rotate 4 = u ∧ (u.rotate 1).rotate 1 = u.rotate 2 :=
  ⟨rfl, rfl⟩

/-- C1 counterexample: on a stack holding only the base entry,
`pop_snapshot` does not raise the stack-discipline error — it succeeds,
removes the base entry (leaving the stack empty, not unchanged) and makes
the base snapshot current. -/
theorem c1_counterexample :
    pop_snapshot ⟨[7, 7], [([7, 7], "")]⟩ = some ⟨[7, 7], ([] : List (List Nat × String))⟩ ∧
      pop_snapshot ⟨[7, 7], [([7, 7], "")]⟩ ≠ none := by
  constructor
  · rfl
  · simp [pop_snapshot]

/-- C1 amended: popping with only the base entry remaining succeeds
without error: the base entry is removed (the stack becomes empty) and the
base snapshot becomes current; only a pop on an already empty stack fails
(Python IndexError). -/
theorem c1_amended (snap base : List Nat) (name : String) :
    pop_snapshot ⟨snap, [(base, name)]⟩ = some ⟨base, []⟩ ∧
      pop_snapshot ⟨snap, ([] : List (List Nat × String))⟩ = none := by
  constructor
  · rfl
  · rfl

/-- C7: `push(name); poke(addr, v); pop()` restores the whole pre-push
state — in particular the byte at `addr` of the current snapshot equals
its pre-poke value, because `push_snapshot` stored a copy that the later
mutation does not touch. -/
theorem c7_push_poke_pop (s : SnapState) (name : String) (addr v : Nat) :
    pop_snapshot (poke (push_snapshot s name) addr v) = some s ∧
      (pop_snapshot (poke (push_snapshot s name) addr v)).map
        (fun t => t.snapshot.getD addr 0) = some (s.snapshot.getD addr 0) := by
  have h : pop_snapshot (poke (push_snapshot s name) addr v) = some s := by
    simp only [pop_snapshot, poke, push_snapshot, List.getLast?_concat, List.dropLast_concat]
  exact ⟨h, by rw [h]; rfl⟩

/-- C10: for all coordinates and sizes, the screenshot grid has exactly
`min h (24 - y)` rows of exactly `min w (32 - x)` tiles each: requests
extending past the screen are silently clamped, never an error. -/
theorem c10_screenshot_clamped (snapshot : List Nat) (x y w h dfAddr afAddr : Nat) :
    (screenshot snapshot x y w h dfAddr afAddr).length = min h (24 - y) ∧
      ∀ row ∈ screenshot snapshot x y w h dfAddr afAddr, row.length = min w (32 - x) := by
  constructor
  · simp [screenshot]
  · intro row hrow
    simp only [screenshot, List.mem_map] at hrow
    obtain ⟨r, _, hr⟩ := hrow
    rw [← hr]
    simp

/-- C2 counterexample: expanding the string `30000-30003-2` with row width
2 yields `[30000, 30002]` — the vertical step defaults to `H * width = 4`,
so after the first full row the cursor advances to 30004, past the end of
the range — not the claimed `[30000, 30002, 30001, 30003]`. -/
theorem c2_counterexample :
    get_udg_addresses (.str ['3', '0', '0', '0', '0', '-', '3', '0', '0', '0', '3', '-', '2']) 2
        = some [30000, 30002] ∧
      some [(30000 : Int), 30002] ≠ some [(30000 : Int), 30002, 30001, 30003] := by
  constructor
  · rfl
  · decide

/-- C2 amended: expanding `30000-30002` with width 1 yields
`[30000, 30001, 30002]` as claimed, but expanding `30000-30003-2` with
width 2 yields `[30000, 30002]` (the inferred vertical step `H * width`
exhausts the range after one row). -/
theorem c2_amended :
    get_udg_addresses (.str ['3', '0', '0', '0', '0', '-', '3', '0', '0', '0', '2']) 1
        = some [30000, 30001, 30002] ∧
      get_udg_addresses (.str ['3', '0', '0', '0', '0', '-', '3', '0', '0', '0', '3', '-', '2']) 2
        = some [30000, 30002] := by
  constructor
  · rfl
  · rfl

/-- C4 counterexample: a 1x1 grid at scale 1 with requested width 0 has
full width 8 and effective width 8 — not `min(0, 8 - 0) = 0` as the claim
demands — because Python's `width or self._full_width` treats the falsy
request 0 as absent; consequently the frame also reports itself
uncropped. -/
theorem c4_counterexample :
    (frameInit [[⟨56, [0, 0, 0, 0, 0, 0, 0, 0], none⟩]] 1 (.int 0) 0 0 (some 0) none 32).width = 8 ∧
      min (0 : Int) (8 - 0) = 0 ∧
      (frameInit [[⟨56, [0, 0, 0, 0, 0, 0, 0, 0], none⟩]] 1 (.int 0) 0 0 (some 0) none 32).cropped
        = false := by
  refine ⟨rfl, rfl, rfl⟩

/-- C4 amended: for every frame built from a non-empty grid, full width is
`8 * columns * scale` and full height `8 * rows * scale`; whenever the
requested width and height are not the falsy integer 0, the effective
dimensions are `min(requested, full - offset)` with the full dimension
substituted for an absent request (a request of exactly 0 is likewise
treated as absent); and the frame reports itself cropped exactly when an
effective dimension differs from the corresponding full one. -/
theorem c4_amended (row : List Udg) (rest : List (List Udg)) (scale x y delay : Int)
    (m : MaskArg) (w h : Option Int) (hw : w ≠ some 0) (hh : h ≠ some 0) :
    (frameInit (row :: rest) scale m x y w h delay).fullWidth = 8 * (row.length : Int) * scale ∧
      (frameInit (row :: rest) scale m x y w h delay).fullHeight
        = 8 * ((row :: rest).length : Int) * scale ∧
      (frameInit (row :: rest) scale m x y w h delay).width
        = min (w.getD (8 * (row.length : Int) * scale)) (8 * (row.length : Int) * scale - x) ∧
      (frameInit (row :: rest) scale m x y w h delay).height
        = min (h.getD (8 * ((row :: rest).length : Int) * scale))
            (8 * ((row :: rest).length : Int) * scale - y) ∧
      ((frameInit (row :: rest) scale m x y w h delay).cropped = true ↔
        ((frameInit (row :: rest) scale m x y w h delay).width
            ≠ (frameInit (row :: rest) scale m x y w h delay).fullWidth ∨
          (frameInit (row :: rest) scale m x y w h delay).height
            ≠ (frameInit (row :: rest) scale m x y w h delay).fullHeight)) := by
  refine ⟨rfl, rfl, ?_, ?_, ?_⟩
  · cases w with
    | none => rfl
    | some v =>
      have hv : v ≠ 0 := fun he => hw (by rw [he])
      simp [frameInit, if_neg hv]
  · cases h with
    | none => rfl
    | some v =>
      have hv : v ≠ 0 := fun he => hh (by rw [he])
      simp [frameInit, if_neg hv]
  · simp [FrameL.cropped, Bool.or_eq_true, bne_iff_ne]

/-- C4 amended witness: a 2x3 grid at scale 2 with crop offset (4, 5),
requested width 30 and absent height. -/
theorem c4_amended_witness :
    (frameInit [[⟨1, [], none⟩, ⟨2, [], none⟩, ⟨3, [], none⟩],
                [⟨4, [], none⟩, ⟨5, [], none⟩, ⟨6, [], none⟩]] 2 (.int 1) 4 5
        (some 30) none 32).fullWidth = 8 * 3 * 2 ∧
      (frameInit [[⟨1, [], none⟩, ⟨2, [], none⟩, ⟨3, [], none⟩],
                  [⟨4, [], none⟩, ⟨5, [], none⟩, ⟨6, [], none⟩]] 2 (.int 1) 4 5
          (some 30) none 32).fullHeight = 8 * 2 * 2 ∧
      (frameInit [[⟨1, [], none⟩, ⟨2, [], none⟩, ⟨3, [], none⟩],
                  [⟨4, [], none⟩, ⟨5, [], none⟩, ⟨6, [], none⟩]] 2 (.int 1) 4 5
          (some 30) none 32).width = min ((some (30 : Int)).getD (8 * 3 * 2)) (8 * 3 * 2 - 4) ∧
      (frameInit [[⟨1, [], none⟩, ⟨2, [], none⟩, ⟨3, [], none⟩],
                  [⟨4, [], none⟩, ⟨5, [], none⟩, ⟨6, [], none⟩]] 2 (.int 1) 4 5
          (some 30) none 32).height = min ((none : Option Int).getD (8 * 2 * 2)) (8 * 2 * 2 - 5) ∧
      ((frameInit [[⟨1, [], none⟩, ⟨2, [], none⟩, ⟨3, [], none⟩],
                   [⟨4, [], none⟩, ⟨5, [], none⟩, ⟨6, [], none⟩]] 2 (.int 1) 4 5
          (some 30) none 32).cropped = true ↔
        ((frameInit [[⟨1, [], none⟩, ⟨2, [], none⟩, ⟨3, [], none⟩],
                     [⟨4, [], none⟩, ⟨5, [], none⟩, ⟨6, [], none⟩]] 2 (.int 1) 4 5
            (some 30) none 32).width
            ≠ (frameInit [[⟨1, [], none⟩, ⟨2, [], none⟩, ⟨3, [], none⟩],
                          [⟨4, [], none⟩, ⟨5, [], none⟩, ⟨6, [], none⟩]] 2 (.int 1) 4 5
                (some 30) none 32).fullWidth ∨
          (frameInit [[⟨1, [], none⟩, ⟨2, [], none⟩, ⟨3, [], none⟩],
                      [⟨4, [], none⟩, ⟨5, [], none⟩, ⟨6, [], none⟩]] 2 (.int 1) 4 5
              (some 30) none 32).height
              ≠ (frameInit [[⟨1, [], none⟩, ⟨2, [], none⟩, ⟨3, [], none⟩],
                            [⟨4, [], none⟩, ⟨5, [], none⟩, ⟨6, [], none⟩]] 2 (.int 1) 4 5
                  (some 30) none 32).fullHeight)) := by
  have h := c4_amended [⟨1, [], none⟩, ⟨2, [], none⟩, ⟨3, [], none⟩]
    [[⟨4, [], none⟩, ⟨5, [], none⟩, ⟨6, [], none⟩]] 2 4 5 32 (.int 1) (some 30) none
    (by decide) (by decide)
  exact h

theorem splitChar_eq_single (sep : Char) (l : List Char) (h : ∀ c ∈ l, c ≠ sep) :
    splitChar sep l = [l] := by
  induction l with
  | nil => rfl
  | cons c cs ih =>
    have hc : ¬c = sep := h c (by simp)
    have hrest : splitChar sep cs = [cs] := ih (fun d hd => h d (by simp [hd]))
    simp [splitChar, hc, hrest]

theorem rsplit1_eq_single (sep : Char) (l : List Char) (h : ∀ c ∈ l, c ≠ sep) :
    rsplit1 sep l = [l] := by
  simp [rsplit1, splitChar_eq_single sep l h]

/-- C3 counterexample: a frame-composition invocation referencing the
unknown identifier `foo` raises no error at all when the target image
already exists and regeneration is not forced — the frame cache is never
consulted — refuting the claim's rider that the error occurs regardless of
any other state. -/
theorem c3_counterexample :
    lookupBy ([] : List (List Char × FrameL)) "foo".toList = none ∧
      expandUdgarrayFrames [(udgImagePathId, "img".toList)] "png".toList
          "a".toList "*foo".toList false true [] = .ok none :=
  ⟨rfl, rfl⟩

/-- C3 amended: whenever the image does need writing (file absent or
regeneration forced), a clause naming an identifier absent from the frame
cache is a fatal error naming that identifier, and a clause with an empty
identifier is a fatal error; when the image does not need writing the
clauses are not examined (see the counterexample). -/
theorem c3_amended (paths : List (List Char × List Char))
    (defaultFormat fname fid : List Char) (cache : List (List Char × FrameL))
    (ip : Option (List Char)) (re fe : Bool)
    (hneed : need_image re fe = true)
    (hfname : fname ≠ [])
    (himg : image_path paths defaultFormat fname udgImagePathId = .ok ip)
    (hfid : ∀ c ∈ fid, c ≠ ';' ∧ c ≠ ',') :
    (fid ≠ [] → lookupBy cache fid = none →
      expandUdgarrayFrames paths defaultFormat fname ('*' :: fid) re fe cache
        = .error (.noSuchFrame fid)) ∧
      expandUdgarrayFrames paths defaultFormat fname ['*'] re fe cache
        = .error (.missingFrameId ['*']) := by
  have hsplit : splitChar ';' fid = [fid] :=
    splitChar_eq_single ';' fid (fun c hc => (hfid c hc).1)
  have hrs : rsplit1 ',' fid = [fid] :=
    rsplit1_eq_single ',' fid (fun c hc => (hfid c hc).2)
  constructor
  · intro hne hlook
    simp only [expandUdgarrayFrames, if_neg hfname, himg, hneed, if_true, List.drop_one,
      List.tail_cons, hsplit]
    have : processFrameClauses cache ('*' :: fid) [fid] 32 = .error (.noSuchFrame fid) := by
      simp only [processFrameClauses, hrs]
      rw [if_neg hne, hlook]
    rw [this]
  · simp only [expandUdgarrayFrames, if_neg hfname, himg, hneed, if_true]
    rfl

/-- C3 amended witness: with an empty cache and a missing image file, the
invocation `*foo` fails with the no-such-frame error naming `foo`, and the
invocation `*` fails with the missing-frame-ID error. -/
theorem c3_amended_witness :
    expandUdgarrayFrames [(udgImagePathId, "img".toList)] "png".toList
        "a".toList ['*', 'f', 'o', 'o'] true false [] = .error (.noSuchFrame ['f', 'o', 'o']) ∧
      expandUdgarrayFrames [(udgImagePathId, "img".toList)] "png".toList
        "a".toList ['*'] true false [] = .error (.missingFrameId ['*']) := by
  have h := c3_amended [(udgImagePathId, "img".toList)] "png".toList "a".toList
    ['f', 'o', 'o'] [] (some "img/a.png".toList) true false (by decide)
    (by decide) rfl (by decide)
  exact ⟨h.1 (by decide) rfl, h.2⟩

theorem processClausesAux_append (snapshot : List Nat) (width : Nat) :
    ∀ (l : List UdgClauseSpec) (st : List (List Udg) × Bool) (c : UdgClauseSpec),
      processClausesAux snapshot width st (l ++ [c])
        = (processClausesAux snapshot width st l).bind
            (fun st' => processClause snapshot width st'.1 c) := by
  intro l
  induction l with
  | nil =>
    intro st c
    simp only [List.nil_append, processClausesAux, Option.bind_eq_bind, Option.some_bind]
    cases processClause snapshot width st.1 c with
    | none => rfl
    | some st' => rfl
  | cons d rest ih =>
    intro st c
    simp only [List.cons_append, processClausesAux]
    cases processClause snapshot width st.1 d with
    | none => rfl
    | some st' => exact ih st' c

theorem processClause_mask_none_snd (snapshot : List Nat) (width : Nat)
    (g : List (List Udg)) (c : UdgClauseSpec) (st' : List (List Udg) × Bool)
    (hmask : c.mask = none)
    (h : processClause snapshot width g c = some st') : st'.2 = false := by
  unfold processClause at h
  rw [hmask] at h
  cases hu : get_udg_addresses c.addr width with
  | none => rw [hu] at h; exact Option.noConfusion h
  | some udgAddresses =>
    rw [hu] at h
    simp only [Option.some.injEq] at h
    rw [← h]
    rfl

theorem processClauses_last_mask_none (snapshot : List Nat) (width : Nat)
    (pre : List UdgClauseSpec) (clast : UdgClauseSpec) (st : List (List Udg) × Bool)
    (hmask : clast.mask = none)
    (h : processClauses snapshot width (pre ++ [clast]) = some st) : st.2 = false := by
  unfold processClauses at h
  rw [processClausesAux_append] at h
  cases hp : processClausesAux snapshot width ([[]], false) pre with
  | none => rw [hp] at h; exact Option.noConfusion h
  | some st1 =>
    rw [hp] at h
    simp only [Option.bind_eq_bind, Option.some_bind] at h
    exact processClause_mask_none_snd snapshot width st1.1 clast st hmask h

theorem udgarrayFinish_written_maskType (paths : List (List Char × List Char))
    (defaultFormat : List Char) (cache : List (List Char × FrameL))
    (replaceImages fileExists : Bool) (udgArray : List (List Udg))
    (flipN rotateN : Nat) (scale : Int) (crop : CropSpec) (fname0 span : List Char)
    (r : UdgarrayOutcome) (w : WrittenImage)
    (h : udgarrayFinish paths defaultFormat cache replaceImages fileExists udgArray
        flipN rotateN scale 0 crop fname0 span = .ok r)
    (hw : r.written = some w) : w.maskType = 0 := by
  unfold udgarrayFinish at h
  simp only [] at h
  repeat' split at h
  all_goals
    first
      | exact Except.noConfusion h
      | (injection h with h1
         rw [← h1] at hw
         first
           | exact Option.noConfusion hw
           | (simp only [Option.some.injEq] at hw
              rw [← hw]))

/-- C9: in the direct-source form, masking is decided by the final clause
alone — `has_masks` is reassigned per clause, so when the last clause has
no mask address range, every image the invocation writes is rendered with
mask type 0, whatever masks earlier clauses attached. -/
theorem c9_last_clause_mask (snapshot : List Nat) (width : Nat) (scale : Int)
    (flipN rotateN maskType : Nat) (pre : List UdgClauseSpec) (clast : UdgClauseSpec)
    (crop : CropSpec) (fname0 span : List Char) (cache : List (List Char × FrameL))
    (replaceImages fileExists : Bool) (paths : List (List Char × List Char))
    (defaultFormat : List Char) (r : UdgarrayOutcome) (w : WrittenImage)
    (hmask : clast.mask = none)
    (hrun : expand_udgarray_direct snapshot width scale flipN rotateN maskType
        (pre ++ [clast]) crop fname0 span cache replaceImages fileExists paths
        defaultFormat = .ok r)
    (hw : r.written = some w) : w.maskType = 0 := by
  unfold expand_udgarray_direct at hrun
  cases hp : processClauses snapshot width (pre ++ [clast]) with
  | none => rw [hp] at hrun; exact Except.noConfusion hrun
  | some st =>
    obtain ⟨grid, hm⟩ := st
    have hsnd : hm = false :=
      processClauses_last_mask_none snapshot width pre clast (grid, hm) hmask hp
    subst hsnd
    rw [hp] at hrun
    exact udgarrayFinish_written_maskType paths defaultFormat cache replaceImages fileExists
      grid flipN rotateN scale crop fname0 span r w hrun hw

/-- C8: for a direct-form invocation whose still-image path resolves to a
non-empty name, when the image file exists and replace-images is off the
encoder is never invoked (`need_image` is false, so `write_image` is
skipped), and when replace-images is on the encoder is invoked exactly
once whether or not the file exists. -/
theorem c8_encoder_gating (snapshot : List Nat) (width : Nat) (scale : Int)
    (flipN rotateN maskType : Nat) (clauses : List UdgClauseSpec) (crop : CropSpec)
    (fname0 span : List Char) (cache : List (List Char × FrameL))
    (paths : List (List Char × List Char)) (defaultFormat : List Char)
    (st : List (List Udg) × Bool) (p : List Char)
    (hproc : processClauses snapshot width clauses = some st)
    (himg : image_path paths defaultFormat (partitionStar fname0).1 udgImagePathId
      = .ok (some p))
    (hp : p ≠ []) :
    (expand_udgarray_direct snapshot width scale flipN rotateN maskType clauses crop fname0
        span cache false true paths defaultFormat).map (fun r => r.encoderCalls) = .ok 0 ∧
      ∀ fe, (expand_udgarray_direct snapshot width scale flipN rotateN maskType clauses crop
          fname0 span cache true fe paths defaultFormat).map (fun r => r.encoderCalls)
        = .ok 1 := by
  have hfname : (partitionStar fname0).1 ≠ [] := by
    intro he
    rw [he] at himg
    simp [image_path] at himg
  have hf0 : fname0 ≠ [] := by
    intro he
    subst he
    exact hfname rfl
  have hpe : p.isEmpty = false := by
    cases p with
    | nil => exact absurd rfl hp
    | cons a t => rfl
  constructor
  · unfold expand_udgarray_direct
    rw [hproc]
    simp only [udgarrayFinish, if_neg hf0, himg, hfname, false_and, if_false, hpe,
      need_image, Bool.not_false, Bool.not_true, Bool.or_false, Bool.false_or,
      Bool.and_false, Bool.true_and, ite_false]
    repeat' split
    all_goals first
      | rfl
      | simp_all
  · intro fe
    unfold expand_udgarray_direct
    rw [hproc]
    simp only [udgarrayFinish, if_neg hf0, himg, hfname, false_and, if_false, hpe,
      need_image, Bool.not_false, Bool.true_or, Bool.or_true, Bool.and_true,
      Bool.true_and, ite_true]
    repeat' split
    all_goals rfl

/-- C8 witness: a one-tile invocation named `pic`; with the file existing
and replace-images off the encoder runs 0 times, with replace-images on
it runs exactly once whether the file exists or not. -/
theorem c8_encoder_gating_witness :
    (expand_udgarray_direct [] 1 1 0 0 0 [⟨.int 0, 56, 1, 0, none⟩] ⟨0, 0, none, none⟩
        "pic".toList [] [] false true [(udgImagePathId, "img".toList)] "png".toList).map
        (fun r => r.encoderCalls) = .ok 0 ∧
      (expand_udgarray_direct [] 1 1 0 0 0 [⟨.int 0, 56, 1, 0, none⟩] ⟨0, 0, none, none⟩
          "pic".toList [] [] true true [(udgImagePathId, "img".toList)] "png".toList).map
          (fun r => r.encoderCalls) = .ok 1 ∧
      (expand_udgarray_direct [] 1 1 0 0 0 [⟨.int 0, 56, 1, 0, none⟩] ⟨0, 0, none, none⟩
          "pic".toList [] [] true false [(udgImagePathId, "img".toList)] "png".toList).map
          (fun r => r.encoderCalls) = .ok 1 := by
  have h := c8_encoder_gating [] 1 1 0 0 0 [⟨.int 0, 56, 1, 0, none⟩] ⟨0, 0, none, none⟩
    "pic".toList [] [] [(udgImagePathId, "img".toList)] "png".toList
    ([[⟨56, [0, 0, 0, 0, 0, 0, 0, 0], none⟩]], false) "img/pic.png".toList rfl rfl (by decide)
  exact ⟨h.1, h.2 true, h.2 false⟩

/-- C9 witness: a two-clause invocation with requested mask type 1 whose
first clause carries a mask range and whose last clause does not writes
its image with mask type 0. -/
theorem c9_last_clause_mask_witness : c9WitnessWritten.maskType = 0 :=
  c9_last_clause_mask [] 1 1 0 0 1 [⟨.int 0, 56, 1, 0, some (.int 0, 1)⟩]
    ⟨.int 1, 56, 1, 0, none⟩ ⟨0, 0, none, none⟩ "p".toList [] [] true false
    [(udgImagePathId, "img".toList)] "png".toList c9WitnessOutcome c9WitnessWritten
    rfl rfl rfl

end SkoolHtml

